import Mathlib

/-!
Verification of the LinkForge internal-link builder.

This file is a shallow embedding of the keyword-linking core of
`gui_internal_link_builder.py` (class `LinkForgeApp`): the functions
`add_link_to_word`, `process_product` and the outcome aggregation of
`start_processing`.

Embedding conventions:

* Strings are `List Char` (`Str`).  Python's ASCII-range `str.lower` is the
  table `lowerC`; regex `\b` word characters (`[A-Za-z0-9_]` in the ASCII
  ranges the documents use) are `isWordC`.
* The Python code parses the document with BeautifulSoup, walks `h2`/`p`
  tags, and then mutates the *original HTML string* with
  `str(p)`-based regex substitution and `html.replace(p_html, new_p_html, 1)`.
  We model the document universe as HTML fragments in BeautifulSoup's
  canonical serialized form over the tags the tool manipulates
  (`<h2>text</h2>`, `<p>…</p>` containing raw text and
  `<a href="url">text</a>` anchors).  `parseDoc` recovers the tag structure
  from such a string (it is the restriction of the BeautifulSoup parse to
  this canonical fragment language; on strings outside the language it
  returns `none` and the model leaves the document unchanged).
  All string-level steps of the source (`str(p)` = `renderPar`, the
  word-boundary regex, the `'<a '`/`'</a>'` counting, `str.replace(..., 1)`)
  are performed on strings exactly as in the source.
* BeautifulSoup tag equality (`tag == h2`) is equality of name and contents;
  for the `h2` tags compared by the source this is equality of heading text.
* The network collaborators (`get_product_description`, `update_product`)
  are the inputs `description` and the booleans `hasCreds` (the source's
  `product_gid and self.shopify_token`) / `persistOk` (the return value of
  `update_product`).
-/

abbrev Str := List Char

/-- ASCII case lowering, the restriction of Python `str.lower` to the ASCII
letters that appear in the modeled documents. -/
def lowerC : Char → Char
  | 'A' => 'a'
  | 'B' => 'b'
  | 'C' => 'c'
  | 'D' => 'd'
  | 'E' => 'e'
  | 'F' => 'f'
  | 'G' => 'g'
  | 'H' => 'h'
  | 'I' => 'i'
  | 'J' => 'j'
  | 'K' => 'k'
  | 'L' => 'l'
  | 'M' => 'm'
  | 'N' => 'n'
  | 'O' => 'o'
  | 'P' => 'p'
  | 'Q' => 'q'
  | 'R' => 'r'
  | 'S' => 's'
  | 'T' => 't'
  | 'U' => 'u'
  | 'V' => 'v'
  | 'W' => 'w'
  | 'X' => 'x'
  | 'Y' => 'y'
  | 'Z' => 'z'
  | c => c

/-- Lowercasing a string: Python `s.lower()`. -/
def lower (s : Str) : Str := s.map lowerC

/-- Word character of the regex `\b` boundary: ASCII alphanumeric or `_`. -/
def isWordC (c : Char) : Bool :=
  decide ((48 ≤ c.toNat ∧ c.toNat ≤ 57) ∨ (65 ≤ c.toNat ∧ c.toNat ≤ 90) ∨
    (97 ≤ c.toNat ∧ c.toNat ≤ 122) ∨ c.toNat = 95)

/-- ASCII alphanumeric character. -/
def isAlnumC (c : Char) : Bool :=
  decide ((48 ≤ c.toNat ∧ c.toNat ≤ 57) ∨ (65 ≤ c.toNat ∧ c.toNat ≤ 90) ∨
    (97 ≤ c.toNat ∧ c.toNat ≤ 122))

/-- Python's `pat in s` substring test. -/
def isSubstr (pat : Str) : Str → Bool
  | [] => pat.isEmpty
  | c :: t => pat.isPrefixOf (c :: t) || isSubstr pat t

/-- Left-to-right non-overlapping occurrence scan, with enough fuel to
consume the whole string. -/
def countOccA (fuel : Nat) (pat s : Str) : Nat :=
  match fuel with
  | 0 => 0
  | fuel + 1 =>
    match s with
    | [] => 0
    | c :: t =>
      if pat ≠ [] ∧ pat.isPrefixOf (c :: t) then
        1 + countOccA fuel pat ((c :: t).drop pat.length)
      else
        countOccA fuel pat t

/-- Python's `s.count(pat)` for a non-empty pattern: number of
non-overlapping occurrences, scanning left to right. -/
def countOcc (pat s : Str) : Nat := countOccA s.length pat s

/-- Python's `s.replace(old, new, 1)`: replace the first occurrence. -/
def replaceFirst (s old new : Str) : Str :=
  if old.isPrefixOf s then new ++ s.drop old.length
  else
    match s with
    | [] => []
    | c :: t => c :: replaceFirst t old new

/-- The heading text the source looks for: `'Product Description'`. -/
def markerTxt : Str := "Product Description".data

/-- The `'<a '` token counted by the source's anchor-avoidance check. -/
def aOpenTok : Str := "<a ".data

/-- The `'</a>'` token counted by the source's anchor-avoidance check. -/
def aCloseTok : Str := "</a>".data

/-- Inline content of a paragraph: raw text or an `<a href="…">…</a>`
anchor, as BeautifulSoup exposes it inside a `p` tag. -/
inductive Inline where
  | txt : Str → Inline
  | anc : Str → Str → Inline
deriving DecidableEq

/-- A block-level node: `<h2>…</h2>` or `<p>…</p>`. -/
inductive Block where
  | h2 : Str → Block
  | par : List Inline → Block
deriving DecidableEq

/-- The `f'<a href="{link_url}">{group}</a>'` string built by the source's
`replace` callback. -/
def anchorStr (url g : Str) : Str :=
  "<a href=\"".data ++ url ++ "\">".data ++ g ++ "</a>".data

/-- Canonical serialization of inline content (`str(...)` of the tag). -/
def renderInline : Inline → Str
  | Inline.txt s => s
  | Inline.anc h t => anchorStr h t

/-- Canonical serialization `str(p)` of a paragraph tag. -/
def renderPar (ins : List Inline) : Str :=
  "<p>".data ++ (ins.map renderInline).flatten ++ "</p>".data

/-- Canonical serialization of a block node. -/
def renderBlock : Block → Str
  | Block.h2 t => "<h2>".data ++ t ++ "</h2>".data
  | Block.par ins => renderPar ins

/-- Canonical serialization of a document fragment. -/
def renderDoc (bs : List Block) : Str :=
  (bs.map renderBlock).flatten

/-- `p.get_text()` of a paragraph: concatenation of all contained strings. -/
def parText (ins : List Inline) : Str :=
  (ins.map (fun i => match i with | Inline.txt s => s | Inline.anc _ t => t)).flatten

/-- `p.find_all('a', href=True)` of a paragraph: its anchors as
(href, text) pairs, in order. -/
def parAnchors (ins : List Inline) : List (Str × Str) :=
  ins.filterMap (fun i => match i with
    | Inline.anc h t => some (h, t)
    | Inline.txt _ => none)

/-- Take characters until the stop character, returning them and the rest. -/
def takeUntilC (stop : Char) : Str → Str × Str
  | [] => ([], [])
  | c :: t =>
    if c = stop then ([], c :: t)
    else
      let (a, r) := takeUntilC stop t
      (c :: a, r)

/-- Parse inline paragraph content until the closing `</p>` tag. -/
def parseInlines (fuel : Nat) (s : Str) : Option (List Inline × Str) :=
  match fuel with
  | 0 => none
  | fuel + 1 =>
    if ("</p>".data).isPrefixOf s then some ([], s)
    else if ("<a href=\"".data).isPrefixOf s then
      let (href, r2) := takeUntilC '"' (s.drop 9)
      match r2 with
      | '"' :: '>' :: r3 =>
        let (t, r4) := takeUntilC '<' r3
        if ("</a>".data).isPrefixOf r4 then
          match parseInlines fuel (r4.drop 4) with
          | some (ins, r5) => some (Inline.anc href t :: ins, r5)
          | none => none
        else none
      | _ => none
    else
      match s with
      | [] => none
      | '<' :: _ => none
      | c :: t =>
        let (a, r) := takeUntilC '<' t
        match parseInlines fuel r with
        | some (ins, r2) => some (Inline.txt (c :: a) :: ins, r2)
        | none => none

/-- Parse a sequence of canonical `<h2>`/`<p>` blocks. -/
def parseBlocks (fuel : Nat) (s : Str) : Option (List Block) :=
  match fuel with
  | 0 => none
  | fuel + 1 =>
    match s with
    | [] => some []
    | _ =>
      if ("<h2>".data).isPrefixOf s then
        let (t, r) := takeUntilC '<' (s.drop 4)
        if ("</h2>".data).isPrefixOf r then
          match parseBlocks fuel (r.drop 5) with
          | some bs => some (Block.h2 t :: bs)
          | none => none
        else none
      else if ("<p>".data).isPrefixOf s then
        match parseInlines (s.length + 1) (s.drop 3) with
        | some (ins, r) =>
          if ("</p>".data).isPrefixOf r then
            match parseBlocks fuel (r.drop 4) with
            | some bs => some (Block.par ins :: bs)
            | none => none
          else none
        | none => none
      else none

/-- The BeautifulSoup parse, restricted to the canonical fragment language
the tool manipulates. -/
def parseDoc (s : Str) : Option (List Block) :=
  parseBlocks (s.length + 1) s

/-- The source's h2 search: first `h2` whose `get_text()` contains
`'Product Description'`; returns its text (BeautifulSoup `==` on these tags
is equality of heading text). -/
def findH2 (bs : List Block) : Option Str :=
  bs.findSome? (fun b => match b with
    | Block.h2 t => if isSubstr markerTxt t then some t else none
    | Block.par _ => none)

/-- The paragraph-collecting loop of `add_link_to_word` (lines 415-425):
walk `h2`/`p` tags, start collecting after the tag equal to the found `h2`,
stop at the first differing `h2` met afterwards. -/
def scopeScanParas (found : Bool) (t0 : Str) : List Block → List (List Inline)
  | [] => []
  | Block.h2 t :: rest =>
    if t = t0 then scopeScanParas true t0 rest
    else if found then []
    else scopeScanParas found t0 rest
  | Block.par p :: rest =>
    if found then p :: scopeScanParas found t0 rest
    else scopeScanParas found t0 rest

/-- The paragraph-collecting loop of the guard in `process_product`
(lines 520-525): same start condition, but it never stops at a later
heading — it collects every paragraph to the end of the document. -/
def guardScanParas (found : Bool) (t0 : Str) : List Block → List (List Inline)
  | [] => []
  | Block.h2 t :: rest =>
    if t = t0 then guardScanParas true t0 rest
    else guardScanParas found t0 rest
  | Block.par p :: rest =>
    if found then p :: guardScanParas found t0 rest
    else guardScanParas found t0 rest

/-- Word-character test at an index, `false` out of range. -/
def wordAt (s : Str) (k : Nat) : Bool :=
  match s[k]? with
  | some c => isWordC c
  | none => false

/-- The regex `\b` assertion at position `j` of `s`. -/
def boundaryB (s : Str) (j : Nat) : Bool :=
  (if j = 0 then false else wordAt s (j - 1)) != wordAt s j

/-- Match of the source's pattern `\b(re.escape(word))\b` with
`re.IGNORECASE` at position `i` of `s`. -/
def wbMatchAt (s w : Str) (i : Nat) : Bool :=
  decide (lower ((s.drop i).take w.length) = lower w) &&
    boundaryB s i && boundaryB s (i + w.length)

/-- Leftmost match position of the pattern in `s`, as `re` finds it. -/
def firstWB (s w : Str) : Option Nat :=
  (List.range (s.length + 1)).find? (fun i => wbMatchAt s w i)

/-- `pattern.sub(replace, p_html, count=1)` of lines 443-452: process the
leftmost match only; the callback leaves it unchanged when the preceding
markup has more `'<a '` than `'</a>'` occurrences, and otherwise wraps the
matched group in an anchor to `link_url`. -/
def subOnce (ph w url : Str) : Str :=
  match firstWB ph w with
  | none => ph
  | some i =>
    if countOcc aOpenTok (ph.take i) > countOcc aCloseTok (ph.take i) then ph
    else ph.take i ++ anchorStr url ((ph.drop i).take w.length) ++ ph.drop (i + w.length)

/-- The paragraph loop of `add_link_to_word` (lines 428-458), carrying the
original document string `html`. -/
def linkLoop (html : Str) (w url : Str) : List (List Inline) → Str
  | [] => html
  | p :: rest =>
    if isSubstr (lower w) (lower (parText p)) = false then linkLoop html w url rest
    else if (parAnchors p).any (fun a => isSubstr url a.1 && isSubstr (lower w) (lower a.2)) then
      html
    else
      let ph := renderPar p
      let nph := subOnce ph w url
      if nph ≠ ph ∧ isSubstr url nph = true then replaceFirst html ph nph
      else linkLoop html w url rest

/-- `add_link_to_word(html, word, link_url)` (lines 397-460). -/
def add_link_to_word (html w url : Str) : Str :=
  if html = [] then html
  else
    match parseDoc html with
    | none => html
    | some bs =>
      match findH2 bs with
      | none => html
      | some t0 => linkLoop html w url (scopeScanParas false t0 bs)

/-- Outcome statuses of `process_product`. -/
inductive Status where
  | error
  | alreadyLinked
  | noMatch
  | success
deriving DecidableEq

/-- The result dictionary of `process_product`, together with the final
document string (`updated_html`, which the source passes to
`update_product`) and whether the Shopify update was attempted. -/
structure PResult where
  status : Status
  word : Str := []
  message : Str := []
  linked : Nat := 0
  updated : Bool := false
  persistCalled : Bool := false
  html : Str := []
deriving DecidableEq

/-- The per-word test of the guard loop in `process_product`
(lines 512-528): parse, find the h2, and look for an anchor, in any
paragraph after it, whose href contains `link_url` and whose text contains
the word case-insensitively. -/
def guardHitStr (description w url : Str) : Bool :=
  match parseDoc description with
  | none => false
  | some bs =>
    match findH2 bs with
    | none => false
    | some t0 =>
      (guardScanParas false t0 bs).any (fun p =>
        (parAnchors p).any (fun a =>
          isSubstr url a.1 && isSubstr (lower w) (lower a.2)))

/-- The guard loop of `process_product`: first word, in list order, that is
already linked. -/
def guardScan (description : Str) (words : List Str) (url : Str) : Option Str :=
  words.findSome? (fun w => if guardHitStr description w url then some w else none)

/-- The insertion loop of `process_product` (lines 532-538): fold
`add_link_to_word` over the keywords, counting the words that changed the
accumulated document string. -/
def insertLoop (description : Str) (words : List Str) (url : Str) : Str × Nat :=
  words.foldl (fun acc w =>
    let nh := add_link_to_word acc.1 w url
    if nh ≠ acc.1 then (nh, acc.2 + 1) else acc) (description, 0)

/-- `process_product` (lines 504-548) with the two network collaborators
abstracted: `description` is what `get_product_description` returned,
`hasCreds` is the truth of `product_gid and self.shopify_token`, and
`persistOk` is the return value of `update_product`. -/
def process_product (description : Str) (words : List Str) (url : Str)
    (hasCreds persistOk : Bool) : PResult :=
  if description = [] then
    { status := Status.error, message := "No description".data, html := description }
  else
    match guardScan description words url with
    | some w => { status := Status.alreadyLinked, word := w, html := description }
    | none =>
      let r := insertLoop description words url
      if r.2 = 0 then { status := Status.noMatch, html := description }
      else
        { status := Status.success, linked := r.2, updated := hasCreds && persistOk,
          persistCalled := hasCreds, html := r.1 }

/-- The per-run outcome counters of `start_processing` (line 575). -/
structure Summary where
  success : Nat := 0
  already : Nat := 0
  noMatch : Nat := 0
  errors : Nat := 0
deriving DecidableEq

/-- The result classification of `start_processing` (lines 582-595). -/
def classify (s : Summary) (r : PResult) : Summary :=
  match r.status with
  | Status.success => { s with success := s.success + 1 }
  | Status.alreadyLinked => { s with already := s.already + 1 }
  | Status.noMatch => { s with noMatch := s.noMatch + 1 }
  | Status.error => { s with errors := s.errors + 1 }

/-- The aggregation over one run: every per-document result is classified,
in order. -/
def tally (rs : List PResult) : Summary :=
  rs.foldl classify {}

/-- Paragraphs following a position until the next heading, as §3
"ScopedBlock" of the specification describes it. -/
def specScopeAfter : List Block → List (List Inline)
  | [] => []
  | Block.h2 _ :: _ => []
  | Block.par p :: rest => p :: specScopeAfter rest

/-- The specification's scope region: the paragraphs between the first
heading whose text contains the marker and the next heading of equal
level (or the end of the document). -/
def specScopedBlock : List Block → List (List Inline)
  | [] => []
  | Block.h2 t :: rest =>
    if isSubstr markerTxt t then specScopeAfter rest else specScopedBlock rest
  | Block.par _ :: rest => specScopedBlock rest

/-- Modelled from the spec (§4.3 IdempotencyGuard), for comparison with the
code's guard: true iff some anchor element within the scoped block has href
equal to the link target and visible text containing the keyword
case-insensitively. -/
def alreadyLinkedSpec (bs : List Block) (w url : Str) : Bool :=
  (specScopedBlock bs).any (fun p =>
    (parAnchors p).any (fun a => decide (a.1 = url) && isSubstr (lower w) (lower a.2)))

/-- C1 failing input: a paragraph textually identical to the scoped one
appears before the heading. -/
def c1doc : Str := "<p>ring</p><h2>Product Description</h2><p>ring</p>".data

def c1word : Str := "ring".data

def c1url : Str := "https://t".data

/-- C5 failing input: an out-of-scope paragraph textually identical to the
in-scope one precedes the heading. -/
def c5doc : Str := "<p>blue gem</p><h2>Product Description</h2><p>blue gem</p>".data

def c5word : Str := "gem".data

def c5url : Str := "https://t/g".data

def c2doc : Str := "<p>emerald ring</p>".data

def c2url : Str := "https://t".data

def c3doc : Str := "<h2>Product Description</h2><p>alpha beta</p>".data

def c3url : Str := "https://t".data

def c4doc : Str := "<h2>Product Description</h2><p>fine sapphire stone</p>".data

def c4url : Str := "https://e/s".data

def c6doc : Str :=
  "<h2>Product Description</h2><p><a href=\"https://other\">ring</a> ring</p>".data

def c6ph : Str := "<p><a href=\"https://other\">ring</a> ring</p>".data

def c6url : Str := "https://t".data

def c7doc : Str :=
  ("<h2>Product Description</h2><p>stone</p>" ++
    "<h2>Care</h2><p><a href=\"https://t/x\">gem</a></p>").data

def c7url : Str := "https://t".data

def c6par : List Inline := [Inline.anc ("https://other".data) ("ring".data),
  Inline.txt (" ring".data)]

def c7wDoc : Str :=
  "<h2>Product Description</h2><p><a href=\"https://t\">gem</a></p>".data

def c7wBlocks : List Block := [Block.h2 ("Product Description".data),
  Block.par [Inline.anc ("https://t".data) ("gem".data)]]

/-- ASCII-alphanumeric test at an index, `false` out of range. -/
def alnumAt (s : Str) (k : Nat) : Bool :=
  match s[k]? with
  | some c => isAlnumC c
  | none => false

/-- C1: the per-document pass is not idempotent.  On `c1doc` the first run
reports `success`; running the pass again on the mutated document reports
`success` again (not `already_linked`) and the document now carries two
anchors for the same keyword/target pair. -/
theorem c1_second_run_relinks :
    (process_product c1doc [c1word] c1url false false).status = Status.success ∧
    (process_product (process_product c1doc [c1word] c1url false false).html
      [c1word] c1url false false).status = Status.success ∧
    (process_product (process_product c1doc [c1word] c1url false false).html
      [c1word] c1url false false).status ≠ Status.alreadyLinked ∧
    countOcc (anchorStr c1url c1word)
      (process_product (process_product c1doc [c1word] c1url false false).html
        [c1word] c1url false false).html = 2 := by
  refine ⟨by decide, by decide, by decide, by decide⟩

/-- C5: the linking operation can mutate the document outside the scope
region.  On `c5doc` the inserted anchor lands in the paragraph *before*
the "Product Description" heading (the `html.replace(p_html, new_p_html, 1)`
call replaces the first textually identical paragraph), while the scoped
paragraph stays unlinked. -/
theorem c5_out_of_scope_mutation :
    add_link_to_word c5doc c5word c5url =
      ("<p>blue <a href=\"https://t/g\">gem</a></p>" ++
        "<h2>Product Description</h2><p>blue gem</p>").data ∧
    add_link_to_word c5doc c5word c5url ≠ c5doc := by
  refine ⟨by decide, by decide⟩

/-- C2 counterexample: a parseable document with no heading matching the
scope marker makes the pass terminate with `no_match`, not `error`. -/
theorem c2_counterexample :
    (parseDoc c2doc).map findH2 = some none ∧
    (process_product c2doc [("ring".data)] c2url false false).status = Status.noMatch ∧
    (process_product c2doc [("ring".data)] c2url false false).status ≠ Status.error := by
  refine ⟨by decide, by decide, by decide⟩

/-- C3 counterexample: with keywords `["alpha", "beta"]` both matching in
the scoped region, the insertion pass does not stop after "alpha": it also
links "beta" in the same pass and reports `linked = 2`. -/
theorem c3_counterexample :
    (process_product c3doc [("alpha".data), ("beta".data)] c3url false false).status =
      Status.success ∧
    (process_product c3doc [("alpha".data), ("beta".data)] c3url false false).linked = 2 ∧
    isSubstr (anchorStr c3url ("beta".data))
      (process_product c3doc [("alpha".data), ("beta".data)] c3url false false).html = true := by
  refine ⟨by decide, by decide, by decide⟩

/-- C4 counterexample: a document whose pass yields `linked` and whose
persist call fails (`update_product` returns `False`) is still recorded as
a success by the run aggregation — the outcome is not downgraded to
`error`. -/
theorem c4_counterexample :
    (process_product c4doc [("sapphire".data)] c4url true false).status = Status.success ∧
    (process_product c4doc [("sapphire".data)] c4url true false).updated = false ∧
    (tally [process_product c4doc [("sapphire".data)] c4url true false]).success = 1 ∧
    (tally [process_product c4doc [("sapphire".data)] c4url true false]).errors = 0 := by
  refine ⟨by decide, by decide, by decide, by decide⟩

/-- C6 counterexample: in `c6doc` the first word-boundary candidate for
"ring" lies inside an existing anchor; a later candidate in the same
paragraph (position 36) is acceptable (balanced anchor-tag counts), yet the
engine links nothing — it does not continue scanning within the paragraph. -/
theorem c6_counterexample :
    wbMatchAt c6ph ("ring".data) 36 = true ∧
    countOcc aOpenTok (c6ph.take 36) = countOcc aCloseTok (c6ph.take 36) ∧
    add_link_to_word c6doc ("ring".data) c6url = c6doc := by
  refine ⟨by decide, by decide, by decide⟩

/-- C7 counterexample: the scoped block of `c7doc` (the single paragraph
before the "Care" heading) contains no anchor, so the specification's
already-linked predicate is false — yet the code's guard fires
(`already_linked`), because its scan runs past the next heading and accepts
an href that merely *contains* the target. -/
theorem c7_counterexample :
    (parseDoc c7doc).map (fun bs => alreadyLinkedSpec bs ("gem".data) c7url) = some false ∧
    (process_product c7doc [("gem".data)] c7url false false).status = Status.alreadyLinked := by
  refine ⟨by decide, by decide⟩

theorem tally_aux (rs : List PResult) (s : Summary) :
    (rs.foldl classify s).success + (rs.foldl classify s).already +
      (rs.foldl classify s).noMatch + (rs.foldl classify s).errors =
    s.success + s.already + s.noMatch + s.errors + rs.length := by
  induction rs generalizing s with
  | nil => simp
  | cons r rs ih =>
    simp only [List.foldl_cons, List.length_cons]
    rw [ih]
    cases h : r.status <;> simp [classify, h] <;> omega

/-- C4 (amended): the outcome classification of a document never depends on
the persist result — a failed `update_product` leaves the status, linked
count and mutated document identical to a successful one (only the
`updated` flag differs), and the aggregation counts every processed
document in exactly one bucket. -/
theorem c4_persist_failure_not_downgraded (d : Str) (ws : List Str) (url : Str)
    (hc p1 p2 : Bool) (rs : List PResult) :
    (process_product d ws url hc p1).status = (process_product d ws url hc p2).status ∧
    (process_product d ws url hc p1).linked = (process_product d ws url hc p2).linked ∧
    (process_product d ws url hc p1).html = (process_product d ws url hc p2).html ∧
    (tally rs).success + (tally rs).already + (tally rs).noMatch + (tally rs).errors =
      rs.length := by
  have h3 : (process_product d ws url hc p1).status = (process_product d ws url hc p2).status ∧
      (process_product d ws url hc p1).linked = (process_product d ws url hc p2).linked ∧
      (process_product d ws url hc p1).html = (process_product d ws url hc p2).html := by
    unfold process_product
    split
    · exact ⟨rfl, rfl, rfl⟩
    · cases hg : guardScan d ws url <;> simp only [hg]
      · split <;> simp
      · simp
  exact ⟨h3.1, h3.2.1, h3.2.2, by simpa [tally] using tally_aux rs {}⟩

/-- C10: an empty (or missing) fetched description makes the pass return
the error result `'No description'` immediately — no guard hit, no linked
count, no persist call — and the linking operation applied to the empty
HTML string returns it unchanged. -/
theorem c10_empty_description (words : List Str) (w url : Str) (hc pOk : Bool) :
    process_product [] words url hc pOk =
      { status := Status.error, message := "No description".data, html := [] } ∧
    add_link_to_word [] w url = [] := by
  exact ⟨rfl, rfl⟩

theorem guardHitStr_no_h2 {d : Str} {bs : List Block} (w url : Str)
    (hp : parseDoc d = some bs) (hh : findH2 bs = none) :
    guardHitStr d w url = false := by
  simp only [guardHitStr, hp, hh]

theorem add_link_no_h2 {d : Str} {bs : List Block} (w url : Str)
    (hp : parseDoc d = some bs) (hh : findH2 bs = none) :
    add_link_to_word d w url = d := by
  simp only [add_link_to_word, hp, hh]
  split <;> rfl

theorem insertLoop_fixed {d url : Str} (ws : List Str)
    (hfix : ∀ w, add_link_to_word d w url = d) :
    insertLoop d ws url = (d, 0) := by
  unfold insertLoop
  induction ws with
  | nil => rfl
  | cons w ws ih =>
    simp only [List.foldl_cons, hfix w, ne_eq, not_true_eq_false, if_false]
    simpa [insertLoop] using ih

/-- C2 (amended): a non-empty, parseable document in which no `h2` heading
contains the scope marker text makes the pass terminate with outcome
`no_match` (the guard never fires and no insertion changes the document),
not `error`. -/
theorem c2_no_heading_gives_no_match (d : Str) (bs : List Block)
    (ws : List Str) (url : Str) (hc pOk : Bool)
    (hne : d ≠ []) (hp : parseDoc d = some bs) (hh : findH2 bs = none) :
    (process_product d ws url hc pOk).status = Status.noMatch := by
  unfold process_product
  rw [if_neg hne]
  have hg : guardScan d ws url = none := by
    unfold guardScan
    rw [List.findSome?_eq_none_iff]
    intro w _
    rw [guardHitStr_no_h2 w url hp hh]
    rfl
  simp only [hg, insertLoop_fixed ws (fun w => add_link_no_h2 w url hp hh)]
  simp

/-- Witness for `c2_no_heading_gives_no_match` at a concrete headingless
document. -/
theorem c2_no_heading_witness :
    (("<p>plain topaz text</p>").data ≠ ([] : Str)) ∧
    parseDoc (("<p>plain topaz text</p>").data) =
      some [Block.par [Inline.txt ("plain topaz text".data)]] ∧
    findH2 [Block.par [Inline.txt ("plain topaz text".data)]] = none ∧
    (process_product (("<p>plain topaz text</p>").data) [("topaz".data)]
      ("https://t".data) false false).status = Status.noMatch :=
  ⟨by decide, by decide, by decide,
    c2_no_heading_gives_no_match (("<p>plain topaz text</p>").data)
      [Block.par [Inline.txt ("plain topaz text".data)]]
      [("topaz".data)] ("https://t".data) false false
      (by decide) (by decide) (by decide)⟩

/-- C3 (amended): the insertion pass does not stop at the first keyword
that produces a change — it attempts every keyword in list order against
the accumulated document; with two keywords that both produce changes, both
are linked in the same pass and the outcome records `linked = 2`. -/
theorem c3_no_short_circuit (d A B url : Str) (hc pOk : Bool)
    (hne : d ≠ []) (hg : guardScan d [A, B] url = none)
    (hA : add_link_to_word d A url ≠ d)
    (hB : add_link_to_word (add_link_to_word d A url) B url ≠ add_link_to_word d A url) :
    process_product d [A, B] url hc pOk =
      { status := Status.success, linked := 2, updated := hc && pOk, persistCalled := hc,
        html := add_link_to_word (add_link_to_word d A url) B url } := by
  unfold process_product
  rw [if_neg hne]
  simp only [hg]
  have hi : insertLoop d [A, B] url =
      (add_link_to_word (add_link_to_word d A url) B url, 2) := by
    simp only [insertLoop, List.foldl_cons, List.foldl_nil]
    rw [if_pos hA, if_pos hB]
  rw [hi]
  simp

/-- Witness for `c3_no_short_circuit`: with keywords "alpha", "beta" both
matching in the scoped paragraph, the pass links both. -/
theorem c3_no_short_circuit_witness :
    (c3doc ≠ []) ∧ guardScan c3doc [("alpha".data), ("beta".data)] c3url = none ∧
    add_link_to_word c3doc ("alpha".data) c3url ≠ c3doc ∧
    add_link_to_word (add_link_to_word c3doc ("alpha".data) c3url) ("beta".data) c3url ≠
      add_link_to_word c3doc ("alpha".data) c3url ∧
    process_product c3doc [("alpha".data), ("beta".data)] c3url true true =
      { status := Status.success, linked := 2, updated := true, persistCalled := true,
        html := add_link_to_word (add_link_to_word c3doc ("alpha".data) c3url)
          ("beta".data) c3url } :=
  ⟨by decide, by decide, by decide, by decide,
    c3_no_short_circuit c3doc ("alpha".data) ("beta".data) c3url true true
      (by decide) (by decide) (by decide) (by decide)⟩

/-- C6 (amended): a keyword candidate lying inside an existing anchor
(unbalanced `'<a '`/`'</a>'` counts before it) is rejected and never
wrapped, but the engine does not keep scanning within the same paragraph:
when the *first* candidate of a paragraph is inside an anchor, the
substitution leaves the paragraph unchanged and the loop moves on to the
next paragraph of the scoped block. -/
theorem c6_in_anchor_skips_paragraph (html w url : Str) (p : List Inline)
    (rest : List (List Inline)) (i : Nat)
    (htext : isSubstr (lower w) (lower (parText p)) = true)
    (hanch : ((parAnchors p).any fun a =>
      isSubstr url a.1 && isSubstr (lower w) (lower a.2)) = false)
    (hfst : firstWB (renderPar p) w = some i)
    (hin : countOcc aOpenTok ((renderPar p).take i) >
      countOcc aCloseTok ((renderPar p).take i)) :
    subOnce (renderPar p) w url = renderPar p ∧
    linkLoop html w url (p :: rest) = linkLoop html w url rest := by
  have hsub : subOnce (renderPar p) w url = renderPar p := by
    unfold subOnce
    simp only [hfst]
    rw [if_pos hin]
  refine ⟨hsub, ?_⟩
  simp only [linkLoop, htext, hanch, hsub]
  simp

/-- Witness for `c6_in_anchor_skips_paragraph` on the paragraph
`<p><a href="https://other">ring</a> ring</p>`, whose first candidate
(position 27) is inside the unrelated anchor. -/
theorem c6_in_anchor_witness :
    isSubstr (lower ("ring".data)) (lower (parText c6par)) = true ∧
    ((parAnchors c6par).any fun a =>
      isSubstr ("https://t".data) a.1 && isSubstr (lower ("ring".data)) (lower a.2)) = false ∧
    firstWB (renderPar c6par) ("ring".data) = some 27 ∧
    countOcc aOpenTok ((renderPar c6par).take 27) >
      countOcc aCloseTok ((renderPar c6par).take 27) ∧
    (subOnce (renderPar c6par) ("ring".data) ("https://t".data) = renderPar c6par ∧
      linkLoop c6doc ("ring".data) ("https://t".data) [c6par] =
        linkLoop c6doc ("ring".data) ("https://t".data) []) :=
  ⟨by decide, by decide, by decide, by decide,
    c6_in_anchor_skips_paragraph c6doc ("ring".data) ("https://t".data) c6par [] 27
      (by decide) (by decide) (by decide) (by decide)⟩

/-- C7 (amended): the code's already-linked check holds exactly when some
anchor in a paragraph *anywhere after* the marker heading (the guard scan
does not stop at the next heading) has an href *containing* the link target
and visible text containing the keyword case-insensitively; the guard runs
over the keyword list before any insertion, and when it fires the pass
returns `already_linked` with the document unmutated and no persist call. -/
theorem c7_guard_characterisation (d url : Str) (bs : List Block) (t0 w : Str)
    (ws : List Str) (hc pOk : Bool)
    (hp : parseDoc d = some bs) (hh : findH2 bs = some t0) :
    (guardHitStr d w url = true ↔
      ∃ p ∈ guardScanParas false t0 bs, ∃ a ∈ parAnchors p,
        isSubstr url a.1 = true ∧ isSubstr (lower w) (lower a.2) = true) ∧
    (guardScan d ws url = some w → d ≠ [] →
      process_product d ws url hc pOk =
        { status := Status.alreadyLinked, word := w, html := d }) := by
  constructor
  · simp only [guardHitStr, hp, hh, List.any_eq_true, Bool.and_eq_true]
  · intro hg hne
    unfold process_product
    rw [if_neg hne]
    simp only [hg]

/-- Witness for `c7_guard_characterisation` on a document whose scoped
paragraph is already linked. -/
theorem c7_guard_witness :
    parseDoc c7wDoc = some c7wBlocks ∧
    findH2 c7wBlocks = some ("Product Description".data) ∧
    ((guardHitStr c7wDoc ("gem".data) ("https://t".data) = true ↔
      ∃ p ∈ guardScanParas false ("Product Description".data) c7wBlocks,
        ∃ a ∈ parAnchors p,
          isSubstr ("https://t".data) a.1 = true ∧
          isSubstr (lower ("gem".data)) (lower a.2) = true) ∧
    (guardScan c7wDoc [("gem".data)] ("https://t".data) = some ("gem".data) →
      c7wDoc ≠ [] →
      process_product c7wDoc [("gem".data)] ("https://t".data) false false =
        { status := Status.alreadyLinked, word := "gem".data, html := c7wDoc })) :=
  ⟨by decide, by decide,
    c7_guard_characterisation c7wDoc ("https://t".data) c7wBlocks
      ("Product Description".data) ("gem".data) [("gem".data)] false false
      (by decide) (by decide)⟩

theorem isWordC_lowerC (c : Char) : isWordC (lowerC c) = isWordC c := by
  unfold lowerC
  split <;> rfl

theorem isWordC_of_isAlnumC {c : Char} (h : isAlnumC c = true) : isWordC c = true := by
  simp only [isAlnumC, decide_eq_true_eq] at h
  simp only [isWordC, decide_eq_true_eq]
  tauto

theorem slice_wordAt {s w : Str} {i : Nat}
    (hsl : lower ((s.drop i).take w.length) = lower w)
    (hw : ∀ c ∈ w, isAlnumC c = true)
    (k : Nat) (hk : k < w.length) :
    wordAt s (i + k) = true := by
  have hq := congrArg (fun l => l[k]?) hsl
  simp only [lower, List.getElem?_map, List.getElem?_take, hk, if_pos,
    List.getElem?_drop] at hq
  cases hwk : w[k]? with
  | none =>
    rw [List.getElem?_eq_none_iff] at hwk
    omega
  | some wk =>
    rw [hwk] at hq
    cases hsk : s[i + k]? with
    | none => rw [hsk] at hq; simp at hq
    | some c =>
      rw [hsk] at hq
      have hq2 : lowerC c = lowerC wk := by simpa using hq
      have hmem : wk ∈ w := List.getElem?_mem hwk
      have halnum : isAlnumC wk = true := hw wk hmem
      have hword : isWordC wk = true := isWordC_of_isAlnumC halnum
      have h1 : isWordC c = true := by
        rw [← isWordC_lowerC c, hq2, isWordC_lowerC wk]
        exact hword
      unfold wordAt
      rw [hsk]
      exact h1

theorem wordAt_false_alnumAt {s : Str} {k : Nat} (h : wordAt s k = false) :
    alnumAt s k = false := by
  unfold wordAt at h
  unfold alnumAt
  cases hg : s[k]? with
  | none => rfl
  | some c =>
    simp only [hg] at h ⊢
    cases hac : isAlnumC c with
    | false => rfl
    | true =>
      rw [isWordC_of_isAlnumC hac] at h
      exact h

/-- C8: a keyword occurrence is matched only at word boundaries — whenever
the engine's pattern matches an alphanumeric keyword at position `i`, the
characters adjacent to the occurrence on either side are not alphanumeric;
in particular "ring" never matches inside "earring" or "rings". -/
theorem c8_whole_word_matching :
    (∀ (s w : Str) (i : Nat),
      w ≠ [] → (∀ c ∈ w, isAlnumC c = true) → wbMatchAt s w i = true →
      (i = 0 ∨ alnumAt s (i - 1) = false) ∧ alnumAt s (i + w.length) = false) ∧
    firstWB ("earring".data) ("ring".data) = none ∧
    firstWB ("rings".data) ("ring".data) = none := by
  refine ⟨?_, by decide, by decide⟩
  intro s w i hne hw hm
  simp only [wbMatchAt, Bool.and_eq_true, decide_eq_true_eq] at hm
  obtain ⟨⟨hsl, hb1⟩, hb2⟩ := hm
  have hlen : 0 < w.length := List.length_pos.mpr hne
  constructor
  · by_cases hi : i = 0
    · exact Or.inl hi
    · right
      have hwi : wordAt s i = true := by
        have h0 := slice_wordAt hsl hw 0 hlen
        simpa using h0
      simp only [boundaryB, if_neg hi, hwi] at hb1
      cases hwp : wordAt s (i - 1) with
      | false => exact wordAt_false_alnumAt hwp
      | true => rw [hwp] at hb1; simp at hb1
  · have hj0 : ¬ (i + w.length = 0) := by omega
    have hwl : wordAt s (i + w.length - 1) = true := by
      have h0 := slice_wordAt hsl hw (w.length - 1) (by omega)
      have heq : i + (w.length - 1) = i + w.length - 1 := by omega
      rwa [heq] at h0
    simp only [boundaryB, if_neg hj0, hwl] at hb2
    cases hwj : wordAt s (i + w.length) with
    | false => exact wordAt_false_alnumAt hwj
    | true => rw [hwj] at hb2; simp at hb2

/-- Witness for the universal part of `c8_whole_word_matching` at the match
of "ring" in "a fine ring here" (position 7). -/
theorem c8_whole_word_witness :
    (("ring".data) ≠ ([] : Str)) ∧
    (∀ c ∈ ("ring".data), isAlnumC c = true) ∧
    wbMatchAt ("a fine ring here".data) ("ring".data) 7 = true ∧
    ((7 = 0 ∨ alnumAt ("a fine ring here".data) (7 - 1) = false) ∧
      alnumAt ("a fine ring here".data) (7 + ("ring".data).length) = false) :=
  ⟨by decide, by decide, by decide,
    c8_whole_word_matching.1 ("a fine ring here".data) ("ring".data) 7
      (by decide) (by decide) (by decide)⟩

theorem replaceFirst_cases (old new : Str) : ∀ s : Str,
    replaceFirst s old new = s ∨
    ∃ x y, s = x ++ old ++ y ∧ replaceFirst s old new = x ++ new ++ y := by
  intro s
  induction s with
  | nil =>
    unfold replaceFirst
    split
    · rename_i h
      rw [List.isPrefixOf_iff_prefix] at h
      have hnil : old = [] := List.prefix_nil.mp h
      subst hnil
      exact Or.inr ⟨[], [], by simp, by simp⟩
    · left; rfl
  | cons c t ih =>
    unfold replaceFirst
    split
    · rename_i h
      rw [List.isPrefixOf_iff_prefix] at h
      obtain ⟨y, hy⟩ := h
      refine Or.inr ⟨[], y, by simp [← hy], ?_⟩
      rw [← hy, List.drop_left]
      simp
    · cases ih with
      | inl h1 =>
        left
        show c :: replaceFirst t old new = c :: t
        rw [h1]
      | inr h2 =>
        obtain ⟨x, y, hxy, hr⟩ := h2
        refine Or.inr ⟨c :: x, y, by simp [hxy], ?_⟩
        show c :: replaceFirst t old new = (c :: x) ++ new ++ y
        rw [hr]
        simp

theorem subOnce_cases (ph w url : Str) :
    subOnce ph w url = ph ∨
    ∃ i, wbMatchAt ph w i = true ∧
      countOcc aOpenTok (ph.take i) ≤ countOcc aCloseTok (ph.take i) ∧
      subOnce ph w url =
        ph.take i ++ anchorStr url ((ph.drop i).take w.length) ++ ph.drop (i + w.length) := by
  cases hf : firstWB ph w with
  | none => left; simp only [subOnce, hf]
  | some i =>
    have hm : wbMatchAt ph w i = true := by
      unfold firstWB at hf
      exact List.find?_some hf
    simp only [subOnce, hf]
    split
    · left; rfl
    · rename_i hc
      exact Or.inr ⟨i, hm, by omega, rfl⟩

theorem linkLoop_cases (w url : Str) : ∀ (ps : List (List Inline)) (html : Str),
    linkLoop html w url ps = html ∨
    ∃ x y ph i, html = x ++ ph ++ y ∧ wbMatchAt ph w i = true ∧
      countOcc aOpenTok (ph.take i) ≤ countOcc aCloseTok (ph.take i) ∧
      ph.take i ++ anchorStr url ((ph.drop i).take w.length) ++ ph.drop (i + w.length) ≠ ph ∧
      linkLoop html w url ps =
        x ++ (ph.take i ++ anchorStr url ((ph.drop i).take w.length) ++
          ph.drop (i + w.length)) ++ y := by
  intro ps
  induction ps with
  | nil => intro html; left; rfl
  | cons p rest ih =>
    intro html
    simp only [linkLoop]
    split
    · exact ih html
    · split
      · left; rfl
      · split
        · rename_i hcond
          obtain ⟨hne, hsub⟩ := hcond
          rcases subOnce_cases (renderPar p) w url with h1 | ⟨i, hm, hcnt, heq⟩
          · exact absurd h1 hne
          · rcases replaceFirst_cases (renderPar p) (subOnce (renderPar p) w url) html with
              h2 | ⟨x, y, hhtml, hres⟩
            · left; exact h2
            · refine Or.inr ⟨x, y, renderPar p, i, hhtml, hm, hcnt, ?_, ?_⟩
              · rw [← heq]; exact hne
              · rw [hres, heq]
        · exact ih html

/-- C9: one linking operation performs at most one insertion: the result is
either the document unchanged (in particular when no paragraph yields an
acceptable candidate), or the document with exactly one occurrence of one
paragraph's markup replaced by that markup with a single word-boundary
match — one not preceded by unbalanced anchor tags — wrapped in exactly one
new anchor; the operation stops there. -/
theorem c9_single_insertion (html w url : Str) :
    add_link_to_word html w url = html ∨
    ∃ x y ph i,
      html = x ++ ph ++ y ∧
      wbMatchAt ph w i = true ∧
      countOcc aOpenTok (ph.take i) ≤ countOcc aCloseTok (ph.take i) ∧
      ph.take i ++ anchorStr url ((ph.drop i).take w.length) ++ ph.drop (i + w.length) ≠ ph ∧
      add_link_to_word html w url =
        x ++ (ph.take i ++ anchorStr url ((ph.drop i).take w.length) ++
          ph.drop (i + w.length)) ++ y := by
  unfold add_link_to_word
  split
  · left; rfl
  · cases hp : parseDoc html with
    | none => left; simp only [hp]
    | some bs =>
      simp only [hp]
      cases hh : findH2 bs with
      | none => left; simp only [hh]
      | some t0 =>
        simp only [hh]
        exact linkLoop_cases w url (scopeScanParas false t0 bs) html
